import Mathlib

/-!
# Verification of the maze traversal engine (src/mazeSolverApp.cpp)

A shallow embedding of the maze-solving robot program.  Coordinates are
`size_t` in the source, so `Vector2D` carries natural numbers reduced
modulo `W = 2^64`; the direction "vectors" `DIRECTION_UP` and
`DIRECTION_LEFT` are the wrapped values of `Vector2D(0, -1)` and
`Vector2D(-1, 0)`, exactly as the `int → size_t` conversion in the source
produces them.

The grid contents are modelled by the index arithmetic of `Maze::load`
(`row = iteration / sColumnCount`, `column = iteration % sColumnCount`):
cell `(row, col)` is a wall iff character `row * cols + col` of the file
data is `'X'`; cells beyond the data stay open (the C++ buffer is
initialised to `false`).  The per-row allocation slip of `load`
(`new bool(false)` instead of an array) is modelled separately by
`loadStores` below.

One `step` is one tick: one execution of the timed block of the main loop
while advancing, or one iteration of the inner backtracking loop.  The two
unguarded stack/grid accesses of the source are modelled as explicit
terminal results: `oobLookahead` for the unguarded
`sMaze[lookAhead.row][lookAhead.column]` read, and `emptyStackTop` for the
`visitedLocations.top()` call that follows a `pop` of a singleton stack.
-/

/-- The modulus `2^64` of `size_t` arithmetic. -/
def W : Nat := 18446744073709551616

/-- The source type `Maze::Vector2D`: a pair of `size_t` coordinates (column, row). -/
structure Vector2D where
  column : Nat
  row : Nat
deriving Repr, DecidableEq

/-- The source operator `Vector2D::operator+`: componentwise `size_t` addition (wraps mod `2^64`). -/
def Vector2D.add (a b : Vector2D) : Vector2D :=
  ⟨(a.column + b.column) % W, (a.row + b.row) % W⟩

/-- The macro `DIRECTION_DOWN = Vector2D(0, 1)`. -/
def DIRECTION_DOWN : Vector2D := ⟨0, 1⟩
/-- The macro `DIRECTION_UP = Vector2D(0, -1)`; the `int` value `-1` converts to `size_t` `2^64 - 1`. -/
def DIRECTION_UP : Vector2D := ⟨0, W - 1⟩
/-- The macro `DIRECTION_LEFT = Vector2D(-1, 0)`. -/
def DIRECTION_LEFT : Vector2D := ⟨W - 1, 0⟩
/-- The macro `DIRECTION_RIGHT = Vector2D(1, 0)`. -/
def DIRECTION_RIGHT : Vector2D := ⟨1, 0⟩

/-- The source enum `Maze::Bot::Direction`. -/
inductive Direction where
  | DOWN
  | UP
  | LEFT
  | RIGHT
deriving Repr, DecidableEq

/-- The source function `Maze::Bot::directionToVector` (also the `switch` at lines 420-444). -/
def directionToVector : Direction → Vector2D
  | .DOWN => DIRECTION_DOWN
  | .UP => DIRECTION_UP
  | .LEFT => DIRECTION_LEFT
  | .RIGHT => DIRECTION_RIGHT

/-- The source type `Maze::NodeInformation`: a visited cell with its open-neighbor flags and
its attempted-direction flags. -/
structure NodeInformation where
  position : Vector2D
  left : Bool
  right : Bool
  up : Bool
  down : Bool
  wentLeft : Bool
  wentRight : Bool
  wentUp : Bool
  wentDown : Bool
deriving Repr, DecidableEq

/-- The source type `Maze::ExitInformation`. -/
structure ExitInformation where
  position : Vector2D
  direction : Direction
deriving Repr, DecidableEq

/-- The grid: dimensions plus the raw file characters, addressed with the
index arithmetic of `Maze::load` (`iteration = row * sColumnCount + column`). -/
structure Grid where
  rows : Nat
  cols : Nat
  data : List Char
deriving Repr, DecidableEq

/-- The read `sMaze[row][col]` under the intended rectangular layout: the cell is a
wall iff the corresponding data character is `'X'` (`'O'` cells and cells
past the end of the data are open, matching the `false` initialisation). -/
def Grid.isWall (g : Grid) (row col : Nat) : Bool :=
  g.data.getD (row * g.cols + col) ' ' == 'X'

/-- A bounds-checked grid query: `none` when the coordinates are outside
`[0, rows) × [0, cols)`, where the C++ read would be undefined behavior. -/
def Grid.wallAt? (g : Grid) (v : Vector2D) : Option Bool :=
  if v.row < g.rows ∧ v.column < g.cols then some (g.isWall v.row v.column) else none

/-- Build a grid from the file lines, as the reader loop of `main` does:
`sRowCount` lines of `sColumnCount` characters each, concatenated. -/
def mkGrid (lines : List String) : Grid :=
  ⟨lines.length, (lines.headD "").length, (lines.map String.toList).flatten⟩

/-- The user-marked exits recorded by `Maze::load`: the positions
`Vector2D(iteration % cols, iteration / cols)` of the `'O'` characters,
in iteration order. -/
def userExits (g : Grid) : List Vector2D :=
  (List.range g.data.length).filterMap (fun i =>
    if g.data.getD i ' ' == 'O' then some ⟨i % g.cols, i / g.cols⟩ else none)

/-- The first open column of a row, scanning the given column list in order
(the inner loop of the top/bottom-row scan in `Maze::findEntryPoints`). -/
def firstOpenCol (g : Grid) (row : Nat) : List Nat → Option Nat
  | [] => none
  | c :: cs => if g.isWall row c then firstOpenCol g row cs else some c

/-- The candidate produced for the top or bottom boundary row: the first
open cell, entered `DOWN` from row `0` and `UP` otherwise. -/
def topBottomScan (g : Grid) (row : Nat) : List ExitInformation :=
  match firstOpenCol g row (List.range g.cols) with
  | some c => [⟨⟨c, row⟩, if row == 0 then .DOWN else .UP⟩]
  | none => []

/-- The row loop of `Maze::findEntryPoints` (lines 225-269).  For the top
and bottom row the inner `break` only ends the column scan, so the row loop
continues; for an interior row, the `break` after a column-0 or last-column
opening leaves the row loop entirely, ending the whole scan. -/
def findEntryPointsFrom (g : Grid) : List Nat → List ExitInformation
  | [] => []
  | row :: rest =>
    if row == 0 || row == g.rows - 1 then
      topBottomScan g row ++ findEntryPointsFrom g rest
    else if !g.isWall row 0 then [⟨⟨0, row⟩, .RIGHT⟩]
    else if !g.isWall row (g.cols - 1) then [⟨⟨g.cols - 1, row⟩, .LEFT⟩]
    else findEntryPointsFrom g rest

/-- The source function `Maze::findEntryPoints`. -/
def findEntryPoints (g : Grid) : List ExitInformation :=
  findEntryPointsFrom g (List.range g.rows)

/-- The traversal state: the robot (`Maze::Bot`), the `visitedLocations`
stack (head = top), and whether the engine is inside the inner
backtracking loop. -/
structure EngineState where
  bot : Vector2D
  dir : Direction
  stack : List NodeInformation
  backtracking : Bool
deriving Repr, DecidableEq

/-- The result of one tick. -/
inductive StepResult where
  | next (s : EngineState)
  | solved (path : List Vector2D)
  | stuck
  | oobLookahead (v : Vector2D)
  | emptyStackTop
deriving Repr, DecidableEq

/-- The local scan at lines 404-418: each neighbor flag is set only under
its bounds guard and stays `false` (the constructor default) otherwise. -/
def scanNode (g : Grid) (p : Vector2D) : NodeInformation :=
  { position := p
    up := p.row != 0 && !g.isWall (p.row - 1) p.column
    down := p.row != g.rows - 1 && !g.isWall (p.row + 1) p.column
    left := p.column != 0 && !g.isWall p.row (p.column - 1)
    right := p.column != g.cols - 1 && !g.isWall p.row (p.column + 1)
    wentLeft := false
    wentRight := false
    wentUp := false
    wentDown := false }

/-- The `switch (bot.direction)` at lines 585-599: record the direction the
robot departs through. -/
def markWent (n : NodeInformation) : Direction → NodeInformation
  | .DOWN => { n with wentDown := true }
  | .UP => { n with wentUp := true }
  | .LEFT => { n with wentLeft := true }
  | .RIGHT => { n with wentRight := true }

/-- Lines 575-602: move the robot one cell in direction `d`, mark `d` as
taken on the current node, and push the node. -/
def moveAndPush (s : EngineState) (node : NodeInformation) (d : Direction) : StepResult :=
  .next ⟨s.bot.add (directionToVector d), d, markWent node d :: s.stack, false⟩

/-- The perpendicular branch attempt at lines 455-501: with an `UP`/`DOWN`
heading blocked, try `LEFT` then `RIGHT`; with a `LEFT`/`RIGHT` heading
blocked, try `UP` then `DOWN`; the blocked axis is closed first. -/
def branchChoice (d : Direction) (n : NodeInformation) : Option (Direction × NodeInformation) :=
  match d with
  | .DOWN | .UP =>
    let n1 := { n with wentDown := true, wentUp := true }
    if n1.left && !n1.wentLeft then some (.LEFT, { n1 with wentLeft := true })
    else if n1.right && !n1.wentRight then some (.RIGHT, { n1 with wentRight := true })
    else none
  | .LEFT | .RIGHT =>
    let n1 := { n with wentLeft := true, wentRight := true }
    if n1.up && !n1.wentUp then some (.UP, n1)
    else if n1.down && !n1.wentDown then some (.DOWN, n1)
    else none

/-- The branch search of one backtracking iteration (lines 522-546): the
directions of the popped node `cur` are tried in the order `DOWN`, `UP`,
`LEFT`, `RIGHT`; a direction qualifies when its neighbor is open, it was
not yet attempted from `cur`, and it does not step into the position of
`nxt`, the node that is on top of the stack after the pop. -/
def backtrackChoice (cur nxt : NodeInformation) : Option (Direction × NodeInformation) :=
  if cur.down && !cur.wentDown && !(nxt.position == cur.position.add DIRECTION_DOWN) then
    some (.DOWN, { cur with wentDown := true })
  else if cur.up && !cur.wentUp && !(nxt.position == cur.position.add DIRECTION_UP) then
    some (.UP, { cur with wentUp := true })
  else if cur.left && !cur.wentLeft && !(nxt.position == cur.position.add DIRECTION_LEFT) then
    some (.LEFT, { cur with wentLeft := true })
  else if cur.right && !cur.wentRight && !(nxt.position == cur.position.add DIRECTION_RIGHT) then
    some (.RIGHT, { cur with wentRight := true })
  else none

/-- One advancing tick (the timed block at lines 365-607): goal check,
local scan, continue-straight look-ahead (unguarded in the source: an
out-of-range index is the terminal `oobLookahead`), perpendicular branch,
or entry into backtracking (immediately `stuck` when the stack is already
empty, since the inner `while` never runs). -/
def advanceStep (g : Grid) (goals : List Vector2D) (s : EngineState) : StepResult :=
  if goals.any (fun p => p == s.bot) then
    .solved (s.stack.map NodeInformation.position)
  else
    let node := scanNode g s.bot
    let lookAhead := s.bot.add (directionToVector s.dir)
    match g.wallAt? lookAhead with
    | none => .oobLookahead lookAhead
    | some true =>
      match branchChoice s.dir node with
      | some (d, node1) => moveAndPush s node1 d
      | none => if s.stack.isEmpty then .stuck else .next ⟨s.bot, s.dir, s.stack, true⟩
    | some false => moveAndPush s node s.dir

/-- One iteration of the inner backtracking loop (lines 508-562): pop the
top node, read the new top (`top()` on an empty stack -- undefined behavior
in the source -- is the terminal `emptyStackTop`), search a usable branch on
the popped node, move the robot to the popped node's cell, and push the
popped node back only when a branch was found. -/
def backtrackStep (s : EngineState) : StepResult :=
  match s.stack with
  | [] => .stuck
  | [_] => .emptyStackTop
  | cur :: nxt :: rest =>
    match backtrackChoice cur nxt with
    | some (d, cur1) => .next ⟨cur.position, d, cur1 :: nxt :: rest, false⟩
    | none => .next ⟨cur.position, s.dir, nxt :: rest, true⟩

/-- One tick of the engine. -/
def step (g : Grid) (goals : List Vector2D) (s : EngineState) : StepResult :=
  if s.backtracking then backtrackStep s else advanceStep g goals s

/-- The state after `n` ticks: `next s` means the engine is still running. -/
def run (g : Grid) (goals : List Vector2D) (s : EngineState) : Nat → StepResult
  | 0 => .next s
  | n + 1 =>
    match run g goals s n with
    | .next s1 => step g goals s1
    | r => r

/-- The insufficient-openings test at line 337 of `main`. -/
def setupGrid (g : Grid) : Option (EngineState × List Vector2D) :=
  let entrances := findEntryPoints g
  let exits := userExits g
  if entrances.length == 0 || (entrances.length == 1 && exits.length == 0) then none
  else
    match entrances with
    | [] => none
    | e :: rest => some (⟨e.position, e.direction, [], false⟩, rest.map (fun x => x.position) ++ exits)

/-- Lines 330-352 of `main`: load the grid, scan for entrances, fail when
there are not enough openings, otherwise start the robot on the first
entrance and keep the remaining entrances plus the user exits as goals. -/
def setup (lines : List String) : Option (EngineState × List Vector2D) :=
  setupGrid (mkGrid lines)

/-- Run the whole pipeline for `n` ticks. -/
def runMaze (lines : List String) (n : Nat) : Option StepResult :=
  (setup lines).map (fun p => run (mkGrid lines) p.2 p.1 n)

/-! ## The per-row allocation of `Maze::load` (lines 171-179)

`load` allocates each row of `sMaze` with `new bool(false)`: storage for
exactly one `bool`, not an array of `sColumnCount` entries.  `loadStores`
replays the write loop of `load` against that allocation, failing on the
first write that falls outside a row's storage. -/

/-- One row of `sMaze` as allocated by `load`: `new bool(false)`. -/
def allocatedRow : List Bool := [false]

/-- A write `row[col] = v` into a row's storage; out of storage is `none`
(a heap overrun in the source). -/
def writeRow (l : List Bool) (col : Nat) (v : Bool) : Option (List Bool) :=
  if col < l.length then some (l.set col v) else none

/-- A write `sMaze[row][col] = v`. -/
def writeMaze (m : List (List Bool)) (row col : Nat) (v : Bool) :
    Option (List (List Bool)) :=
  if row < m.length then (writeRow (m.getD row []) col v).map (fun r => m.set row r) else none

/-- The write loop of `load` (lines 182-201): for each data index write
`false` for `'O'` and `c == 'X'` otherwise, at `(i / cols, i % cols)`,
into the rows allocated by `new bool(false)`. -/
def loadStores (rows cols : Nat) (data : List Char) : Option (List (List Bool)) :=
  (List.range data.length).foldl
    (fun acc i => acc.bind (fun m => writeMaze m (i / cols) (i % cols)
      (if data.getD i ' ' == 'O' then false else data.getD i ' ' == 'X')))
    (some (List.replicate rows allocatedRow))

/-! ## Result projections -/

/-- The engine is still running after the tick. -/
def StepResult.isNext : StepResult → Bool
  | .next _ => true
  | _ => false

/-- The tick ended the run with a solution. -/
def StepResult.isSolved : StepResult → Bool
  | .solved _ => true
  | _ => false

/-- The engine is still running and not inside the backtracking loop. -/
def StepResult.isAdvancing : StepResult → Bool
  | .next s => !s.backtracking
  | _ => false

/-! ## Fixtures -/

/-- A maze whose bottom row has a second opening right of the recorded one:
the robot walks down column 2 and, standing on the bottom row heading DOWN,
evaluates the look-ahead one row below the grid. -/
def c1Lines : List String := ["XX X", "XX X", "X  X"]

/-- An open ring around a single wall, entered from the left, with a sealed
user exit: the robot circulates the ring forever. -/
def ringLines : List String := ["XXXXXXX", "X   XOX", "  X XXX", "X   XXX", "XXXXXXX"]

/-- Interior openings on both sides in different rows: row 1 opens in the
last column, row 2 opens in column 0. -/
def c3Lines : List String := ["XXXX", "XXX ", " XXX", "XXXX"]

/-- A fully walled boundary with two interior user-marked exits. -/
def c4Lines : List String := ["XXXXX", "XOXOX", "XXXXX"]

/-- A straight vertical corridor of length 3. -/
def corridorLines : List String := ["X X", "X X", "X X"]

/-- A maze solved after one backtrack: the robot explores the left dead end,
backtracks to the junction and leaves through the right opening. -/
def dupLines : List String := ["XX XX", "X    ", "XXXXX"]

/-- A dead-end column entered from the bottom, with a sealed user exit; the
robot backtracks down the column it came from. -/
def c8Lines : List String := ["XXXXX", "X XOX", "X XXX", "X XXX", "X XXX"]

/-- A two-cell dead-end pocket under the entrance: backtracking starts with
exactly one node in the history stack. -/
def c10Lines : List String := ["X X", "X X", "XXX", "X X"]

/-- The node pushed for cell `(1,0)` after the first tick on `corridorLines`
(also on `c10Lines`): only the downward neighbor is open, and `DOWN` was
the departure direction. -/
def entryNode10 : NodeInformation :=
  ⟨⟨1, 0⟩, false, false, false, true, false, false, false, true⟩

/-- The engine state after one tick on `corridorLines`. -/
def c5State : EngineState := ⟨⟨1, 1⟩, .DOWN, [entryNode10], false⟩

/-- The solution path emitted on `dupLines`. -/
def dupPath : List Vector2D := [⟨3, 1⟩, ⟨2, 1⟩, ⟨2, 1⟩, ⟨2, 0⟩]

/-- The node for cell `(1,2)` popped on the first backtracking tick of the
`c8Lines` run: up and down open, `UP` already attempted. -/
def c8Cur : NodeInformation :=
  ⟨⟨1, 2⟩, false, false, true, true, false, false, true, false⟩

/-- The node below it, for cell `(1,3)`. -/
def c8Nxt : NodeInformation :=
  ⟨⟨1, 3⟩, false, false, true, true, false, false, true, false⟩

/-- The bottom node, for the entrance cell `(1,4)`. -/
def c8Bot : NodeInformation :=
  ⟨⟨1, 4⟩, false, false, true, false, false, false, true, false⟩

/-! ## Direction orders and the claim-side backtrack rule -/

/-- Open-neighbor flag of a node in a direction. -/
def nodeOpen (n : NodeInformation) : Direction → Bool
  | .DOWN => n.down
  | .UP => n.up
  | .LEFT => n.left
  | .RIGHT => n.right

/-- Attempted flag of a node in a direction. -/
def nodeWent (n : NodeInformation) : Direction → Bool
  | .DOWN => n.wentDown
  | .UP => n.wentUp
  | .LEFT => n.wentLeft
  | .RIGHT => n.wentRight

/-- The perpendicular directions tried when the heading is blocked, in the
order of the source's if-chains. -/
def perpendicularOrder : Direction → List Direction
  | .DOWN | .UP => [.LEFT, .RIGHT]
  | .LEFT | .RIGHT => [.UP, .DOWN]

/-- The fixed evaluation order of the backtracking branch search. -/
def backtrackOrder : List Direction := [.DOWN, .UP, .LEFT, .RIGHT]

/-- Modelled from the claim's words for the backtrack step: take the first
direction in the order `DOWN`, `UP`, `LEFT`, `RIGHT` that is open,
unattempted, and "does not revisit the cell just popped" — read against the
code, the popped node is the inspected one, so the guard compares against
the popped node's own cell. -/
def backtrackChoiceClaimed (cur : NodeInformation) : Option Direction :=
  backtrackOrder.find? (fun e =>
    nodeOpen cur e && !nodeWent cur e && !(cur.position == cur.position.add (directionToVector e)))

/-- The claim's adjacency relation on consecutive path cells: exactly one
unit apart in exactly one axis. -/
def unitStepB (a b : Vector2D) : Bool :=
  (a.column == b.column && (a.row == b.row + 1 || b.row == a.row + 1)) ||
  (a.row == b.row && (a.column == b.column + 1 || b.column == a.column + 1))

/-- Every consecutive pair of the list is one unit apart. -/
def chainUnitStepB : List Vector2D → Bool
  | a :: b :: rest => unitStepB a b && chainUnitStepB (b :: rest)
  | _ => true

/-- Equal or one unit apart. -/
def eqOrUnitStepB (a b : Vector2D) : Bool :=
  a == b || unitStepB a b

/-- Every consecutive pair of the list is equal or one unit apart. -/
def pathChainB : List Vector2D → Bool
  | a :: b :: rest => eqOrUnitStepB a b && pathChainB (b :: rest)
  | _ => true

/-! ## Code-bug witnesses and counterexamples -/

/-- C1: the engine does query the grid outside `[0, rowCount) × [0,
columnCount)`.  On `c1Lines` the robot reaches the open bottom-row cell
`(2,2)` (which is not the recorded bottom entrance) still heading `DOWN`,
and on tick 3 the unguarded continue-straight look-ahead at lines 446-450
reads `sMaze[3][2]`, one row below the grid. -/
theorem c1_oob_lookahead :
    setup c1Lines = some (⟨⟨2, 0⟩, .DOWN, [], false⟩, [⟨1, 2⟩])
    ∧ runMaze c1Lines 3 = some (.oobLookahead ⟨2, 3⟩)
    ∧ (mkGrid c1Lines).rows = 3 := ⟨rfl, rfl, rfl⟩

/-- C2: the tick loop does not reach `Solved` or `Stuck` within
`rows * columns * 4` ticks on every valid grid: on the ring maze
`ringLines` (5 rows, 7 columns, two openings, so it loads successfully) the
engine is still running after `5 * 7 * 4 = 140` ticks — the robot
circulates the open ring, re-attempting the same (cell, direction) pairs,
because attempted-direction flags live on per-visit stack nodes rather
than per cell. -/
theorem c2_unbounded_run :
    (mkGrid ringLines).rows * (mkGrid ringLines).cols * 4 = 140
    ∧ (runMaze ringLines 140).map StepResult.isNext = some true := ⟨rfl, rfl⟩

/-- C7: `load` does not give every row `columnCount` wall flags.  Each row
is allocated as `new bool(false)` — storage for exactly one flag — so
already for a 1-line, 2-column maze `"XX"` the write of the second
character lands outside the row's storage, while a 1-column maze loads
fine. -/
theorem c7_row_allocation :
    allocatedRow.length = 1
    ∧ loadStores 1 2 ("XX".toList) = none
    ∧ loadStores 1 1 ("X".toList) = some [[true]] := ⟨rfl, rfl, rfl⟩

/-- C10: backtracking is entered with exactly one node in History on
`c10Lines`: tick 1 moves the robot into the two-cell pocket (pushing one
node), tick 2 finds it blocked with no branch, and on tick 3 the inner loop
pops the single node and then reads `visitedLocations.top()` of the now
empty stack. -/
theorem c10_empty_stack_top :
    runMaze c10Lines 2 = some (.next ⟨⟨1, 1⟩, .DOWN, [entryNode10], true⟩)
    ∧ runMaze c10Lines 3 = some .emptyStackTop := ⟨rfl, rfl⟩

/-- C3 counterexample: on `c3Lines` the first open interior cell in column
0 is in row 2 and open, yet the scan returns only the row-1 last-column
candidate — the interior `break` leaves the whole row loop, so no per-side
scan over all interior rows happens and the column-0 opening is never
returned. -/
theorem c3_counterexample :
    findEntryPoints (mkGrid c3Lines) = [⟨⟨3, 1⟩, .LEFT⟩]
    ∧ (mkGrid c3Lines).isWall 2 0 = false
    ∧ ⟨⟨0, 2⟩, .RIGHT⟩ ∉ findEntryPoints (mkGrid c3Lines) := by
  refine ⟨rfl, rfl, ?_⟩
  decide

/-- C4 counterexample: `c4Lines` has zero boundary openings but two
user-marked exits, so the total number of openings is two — by the claim
loading must succeed — yet the check at line 337 fails because
`entrances.size() == 0`. -/
theorem c4_counterexample :
    findEntryPoints (mkGrid c4Lines) = []
    ∧ userExits (mkGrid c4Lines) = [⟨1, 1⟩, ⟨3, 1⟩]
    ∧ setup c4Lines = none := ⟨rfl, rfl, rfl⟩

/-- C5 counterexample: after the first (advancing) tick on `corridorLines`
the robot stands on `(1,1)` but the top of the history stack records
`(1,0)`, the cell it departed — the node is pushed after `bot.position +=
direction`, so while advancing the top is one step behind the robot, not
equal to its current cell. -/
theorem c5_counterexample :
    runMaze corridorLines 1 = some (.next c5State)
    ∧ c5State.backtracking = false
    ∧ c5State.stack.map NodeInformation.position = [⟨1, 0⟩]
    ∧ c5State.bot = ⟨1, 1⟩
    ∧ (⟨1, 0⟩ : Vector2D) ≠ ⟨1, 1⟩ := by
  refine ⟨rfl, rfl, rfl, rfl, ?_⟩
  decide

/-- C6 counterexample: the solution path emitted on `dupLines` contains the
cell `(2,1)` twice in a row — the node re-pushed when backtracking found a
branch is followed by the fresh node pushed on the next advance from the
same cell — so consecutive path cells do not always differ by exactly one
unit. -/
theorem c6_counterexample :
    runMaze dupLines 7 = some (.solved dupPath)
    ∧ chainUnitStepB dupPath = false := ⟨rfl, rfl⟩

/-- C8 counterexample: on tick 5 of the `c8Lines` run the engine pops
`c8Cur` (cell `(1,2)`, down open and unattempted) above `c8Nxt` (cell
`(1,3)`).  The code rejects `DOWN` because it would step into `c8Nxt`'s
cell — the node below the popped one — and finds no branch at all, while
the claim's guard ("does not revisit the cell just popped") rejects
nothing and takes `DOWN`. -/
theorem c8_counterexample :
    runMaze c8Lines 4 = some (.next ⟨⟨1, 1⟩, .UP, [c8Cur, c8Nxt, c8Bot], true⟩)
    ∧ backtrackChoice c8Cur c8Nxt = none
    ∧ backtrackChoiceClaimed c8Cur = some .DOWN := ⟨rfl, rfl, rfl⟩

/-- C9 counterexample: `corridorLines` is a straight corridor of length 3,
but the engine is not solved after `3 - 1 = 2` ticks; the goal check that
reports `Solved` runs at the start of the tick after the last move, so the
run takes 3 ticks. -/
theorem c9_counterexample :
    (mkGrid corridorLines).rows = 3
    ∧ (runMaze corridorLines 2).map StepResult.isSolved = some false
    ∧ runMaze corridorLines 3 = some (.solved [⟨1, 1⟩, ⟨1, 0⟩]) := ⟨rfl, rfl, rfl⟩

/-! ## Helper lemmas -/

theorem Vector2D.eq_iff (a b : Vector2D) :
    a = b ↔ a.column = b.column ∧ a.row = b.row := by
  constructor
  · rintro rfl; exact ⟨rfl, rfl⟩
  · rcases a with ⟨ac, ar⟩; rcases b with ⟨bc, br⟩
    rintro ⟨h1, h2⟩
    simp_all

theorem markWent_position (n : NodeInformation) (d : Direction) :
    (markWent n d).position = n.position := by
  cases d <;> rfl

theorem branchChoice_position (d d1 : Direction) (n n1 : NodeInformation)
    (h : branchChoice d n = some (d1, n1)) : n1.position = n.position := by
  cases d <;> simp only [branchChoice] at h <;> split_ifs at h <;>
    first
      | exact Option.noConfusion h
      | (simp only [Option.some.injEq, Prod.mk.injEq] at h; rcases h with ⟨h1, rfl⟩; rfl)

theorem branchChoice_nodeOpen (d d1 : Direction) (n n1 : NodeInformation)
    (h : branchChoice d n = some (d1, n1)) : nodeOpen n d1 = true := by
  cases d <;> simp only [branchChoice] at h <;> split_ifs at h <;>
    first
      | exact Option.noConfusion h
      | (simp only [Option.some.injEq, Prod.mk.injEq] at h; rcases h with ⟨rfl, h2⟩;
         simp_all [nodeOpen])

theorem backtrackChoice_position (cur nxt : NodeInformation) (d1 : Direction)
    (cur1 : NodeInformation) (h : backtrackChoice cur nxt = some (d1, cur1)) :
    cur1.position = cur.position := by
  unfold backtrackChoice at h
  split_ifs at h <;>
    first
      | exact Option.noConfusion h
      | (simp only [Option.some.injEq, Prod.mk.injEq] at h; rcases h with ⟨h1, rfl⟩; rfl)

/-- C4 amended: loading fails with the insufficient-openings error iff the
boundary scan found no entrance at all, or found exactly one and there are
no user-marked exits. -/
theorem c4_amended (lines : List String) :
    setup lines = none ↔
      (findEntryPoints (mkGrid lines) = [] ∨
        ((findEntryPoints (mkGrid lines)).length = 1 ∧ userExits (mkGrid lines) = [])) := by
  simp only [setup, setupGrid]
  cases h : findEntryPoints (mkGrid lines) with
  | nil => simp
  | cons e rest =>
    cases rest with
    | nil =>
      cases hu : userExits (mkGrid lines) with
      | nil => simp
      | cons u us => simp
    | cons f rs => simp

/-- C8 amended: both tie-break rules as first-match over explicit ordered
tables. -/
theorem c8_amended (d : Direction) (n cur nxt : NodeInformation) :
    (branchChoice d n).map Prod.fst =
      (perpendicularOrder d).find? (fun e => nodeOpen n e && !nodeWent n e)
    ∧ (backtrackChoice cur nxt).map Prod.fst =
      backtrackOrder.find? (fun e =>
        nodeOpen cur e && !nodeWent cur e &&
          !(nxt.position == cur.position.add (directionToVector e))) := by
  constructor
  · cases d
    case DOWN =>
      simp only [branchChoice, perpendicularOrder, List.find?, nodeOpen, nodeWent]
      cases hL : (n.left && !n.wentLeft) <;> cases hR : (n.right && !n.wentRight) <;>
        simp [hL, hR]
    case UP =>
      simp only [branchChoice, perpendicularOrder, List.find?, nodeOpen, nodeWent]
      cases hL : (n.left && !n.wentLeft) <;> cases hR : (n.right && !n.wentRight) <;>
        simp [hL, hR]
    case LEFT =>
      simp only [branchChoice, perpendicularOrder, List.find?, nodeOpen, nodeWent]
      cases hU : (n.up && !n.wentUp) <;> cases hD : (n.down && !n.wentDown) <;>
        simp [hU, hD]
    case RIGHT =>
      simp only [branchChoice, perpendicularOrder, List.find?, nodeOpen, nodeWent]
      cases hU : (n.up && !n.wentUp) <;> cases hD : (n.down && !n.wentDown) <;>
        simp [hU, hD]
  · simp only [backtrackChoice, backtrackOrder, List.find?, nodeOpen, nodeWent,
      directionToVector]
    cases h1 : (cur.down && !cur.wentDown && !(nxt.position == cur.position.add DIRECTION_DOWN)) <;>
    cases h2 : (cur.up && !cur.wentUp && !(nxt.position == cur.position.add DIRECTION_UP)) <;>
    cases h3 : (cur.left && !cur.wentLeft && !(nxt.position == cur.position.add DIRECTION_LEFT)) <;>
    cases h4 : (cur.right && !cur.wentRight && !(nxt.position == cur.position.add DIRECTION_RIGHT)) <;>
      simp [h1, h2, h3, h4]

/-- The initial engine state on `corridorLines`. -/
def corridorStart : EngineState := ⟨⟨1, 0⟩, .DOWN, [], false⟩

/-- C5 amended: a full per-tick characterisation of stack top versus
robot.  On a backtracking tick the old top node is popped and the robot
moves to its cell; when no usable branch is found there the new stack is
exactly the old stack minus its top and backtracking continues, and when a
branch is found the node is pushed back, so the top records the robot's
current cell.  An advancing tick that moves pushes the departed cell (the
robot ends one displacement ahead of the new top); the tick that merely
enters backtracking changes neither the robot nor the stack. -/
theorem c5_amended (g : Grid) (goals : List Vector2D) (s s1 : EngineState)
    (h : step g goals s = .next s1) :
    if s.backtracking then
      s.stack.head?.map NodeInformation.position = some s1.bot
        ∧ (if s1.backtracking then s1.stack = s.stack.tail
           else s1.stack.head?.map NodeInformation.position = some s1.bot)
    else
      (if s1.backtracking then s1.stack = s.stack ∧ s1.bot = s.bot
       else s1.stack.head?.map NodeInformation.position = some s.bot
         ∧ s1.bot = s.bot.add (directionToVector s1.dir)) := by
  cases hb : s.backtracking with
  | true =>
    simp only [hb, if_true]
    simp only [step, hb, if_true] at h
    unfold backtrackStep at h
    split at h
    · simp at h
    · simp at h
    · rename_i cur nxt rest heqs
      rw [heqs]
      split at h
      · rename_i d1 cur1 heq
        simp only [StepResult.next.injEq] at h
        subst h
        simp [backtrackChoice_position cur nxt d1 cur1 heq]
      · simp only [StepResult.next.injEq] at h
        subst h
        simp
  | false =>
    simp only [hb, Bool.false_eq_true, if_false]
    simp only [step, hb, Bool.false_eq_true, if_false] at h
    simp only [advanceStep] at h
    split at h
    · simp at h
    · split at h
      · simp at h
      · split at h
        · rename_i d2 n1 heq
          simp only [moveAndPush, StepResult.next.injEq] at h
          subst h
          simp [markWent_position, branchChoice_position _ _ _ _ heq, scanNode]
        · split at h
          · simp at h
          · simp only [StepResult.next.injEq] at h
            subst h
            simp
      · simp only [moveAndPush, StepResult.next.injEq] at h
        subst h
        simp [markWent_position, scanNode]

/-- C5 amended witness: instantiated at the first tick of the
`corridorLines` run. -/
theorem c5_amended_witness :
    if corridorStart.backtracking then
      corridorStart.stack.head?.map NodeInformation.position = some c5State.bot
        ∧ (if c5State.backtracking then c5State.stack = corridorStart.stack.tail
           else c5State.stack.head?.map NodeInformation.position = some c5State.bot)
    else
      (if c5State.backtracking then
        c5State.stack = corridorStart.stack ∧ c5State.bot = corridorStart.bot
       else c5State.stack.head?.map NodeInformation.position = some corridorStart.bot
         ∧ c5State.bot = corridorStart.bot.add (directionToVector c5State.dir)) :=
  c5_amended (mkGrid corridorLines) [⟨1, 2⟩] corridorStart c5State (by rfl)

/-- The candidate an interior row contributes: column 0 first (entered
`RIGHT`), then the last column (entered `LEFT`). -/
def interiorSideCandidate (g : Grid) (row : Nat) : Option ExitInformation :=
  if !g.isWall row 0 then some ⟨⟨0, row⟩, .RIGHT⟩
  else if !g.isWall row (g.cols - 1) then some ⟨⟨g.cols - 1, row⟩, .LEFT⟩
  else none

/-- The single candidate of the interior scan: the first interior row, in
order, that opens on either side. -/
def firstInteriorCandidate (g : Grid) : Option ExitInformation :=
  (List.range' 1 (g.rows - 2)).findSome? (interiorSideCandidate g)

theorem findEntryPointsFrom_interior (g : Grid) (h1 : g.rows - 1 ≠ 0) (l : List Nat)
    (hl : ∀ r ∈ l, r ≠ 0 ∧ r ≠ g.rows - 1) :
    findEntryPointsFrom g (l ++ [g.rows - 1]) =
      match l.findSome? (interiorSideCandidate g) with
      | some e => [e]
      | none => topBottomScan g (g.rows - 1) := by
  induction l with
  | nil =>
    simp only [List.nil_append, List.findSome?_nil]
    simp [findEntryPointsFrom, h1]
  | cons r l ih =>
    obtain ⟨hr0, hrl⟩ := hl r (by simp)
    have hcond : (r == 0 || r == g.rows - 1) = false := by
      simp [hr0, hrl]
    simp only [List.cons_append, findEntryPointsFrom, hcond, Bool.false_eq_true, if_false,
      List.findSome?_cons]
    cases hw0 : g.isWall r 0 with
    | false => simp [interiorSideCandidate, hw0]
    | true =>
      cases hw1 : g.isWall r (g.cols - 1) with
      | false => simp [interiorSideCandidate, hw0, hw1]
      | true =>
        simp only [interiorSideCandidate, hw0, hw1]
        simp only [Bool.not_true, Bool.false_eq_true, if_false]
        exact ih (fun x hx => hl x (by simp [hx]))

/-- The scan characterised: the top-row candidate, then either the single
candidate of the first opening interior row (which ends the whole scan) or,
when no interior row opens on a side, the bottom-row candidate. -/
theorem findEntryPoints_split (g : Grid) (h : 2 ≤ g.rows) :
    findEntryPoints g =
      topBottomScan g 0 ++
        (match firstInteriorCandidate g with
          | some e => [e]
          | none => topBottomScan g (g.rows - 1)) := by
  have h1 : g.rows - 1 ≠ 0 := by omega
  have e1 : g.rows = (g.rows - 1) + 1 := by omega
  have e2 : g.rows - 1 = (g.rows - 2) + 1 := by omega
  have hsplit : List.range g.rows = 0 :: (List.range' 1 (g.rows - 2) ++ [g.rows - 1]) := by
    conv_lhs => rw [List.range_eq_range', e1, List.range'_succ, e2, List.range'_1_concat]
    have e3 : 1 + (g.rows - 2) = g.rows - 1 := by omega
    simp [e3]
  rw [findEntryPoints, hsplit]
  simp only [findEntryPointsFrom, beq_self_eq_true, Bool.true_or, if_true]
  rw [findEntryPointsFrom_interior g h1]
  · rfl
  · intro r hr
    rw [List.mem_range'] at hr
    obtain ⟨i, hi, rfl⟩ := hr
    omega

/-- C3 amended: for interior rows the scan checks, row by row, column 0
(direction `RIGHT`) then the last column (direction `LEFT`); the first
opening found on either side yields a single candidate and aborts the rest
of the scan, including the bottom boundary row — there is no independent
per-side scan over all interior rows. -/
theorem c3_amended (g : Grid) (h : 2 ≤ g.rows) :
    findEntryPoints g =
      topBottomScan g 0 ++
        (match firstInteriorCandidate g with
          | some e => [e]
          | none => topBottomScan g (g.rows - 1)) :=
  findEntryPoints_split g h

/-- C3 amended witness: instantiated on the counterexample grid, where the
interior scan finds its single candidate in row 1 and the bottom row is
never scanned. -/
theorem c3_amended_witness :
    findEntryPoints (mkGrid c3Lines) =
      topBottomScan (mkGrid c3Lines) 0 ++ [⟨⟨3, 1⟩, .LEFT⟩] :=
  c3_amended (mkGrid c3Lines) (by decide)

/-! ## The straight vertical corridor family -/

/-- One row of a vertical-corridor maze: walls except an opening in
column `c`. -/
def corridorLine (C c : Nat) : List Char :=
  List.replicate c 'X' ++ ' ' :: List.replicate (C - c - 1) 'X'

/-- A `C × R` maze whose only open cells form a straight vertical corridor
in column `c`. -/
def corridorGrid (C R c : Nat) : Grid :=
  ⟨R, C, (List.replicate R (corridorLine C c)).flatten⟩

/-- The initial engine state for the corridor: on the top opening,
heading `DOWN`. -/
def corridorInit (c : Nat) : EngineState := ⟨⟨c, 0⟩, .DOWN, [], false⟩

theorem corridorLine_length (C c : Nat) (h : c < C) : (corridorLine C c).length = C := by
  simp [corridorLine]
  omega

theorem flatten_replicate_getD (line : List Char) (R r col : Nat) (hr : r < R)
    (hcol : col < line.length) (d : Char) :
    ((List.replicate R line).flatten.getD (r * line.length + col) d) = line.getD col d := by
  induction R generalizing r with
  | zero => omega
  | succ n ih =>
    rw [List.replicate_succ, List.flatten_cons]
    cases r with
    | zero =>
      simp only [Nat.zero_mul, Nat.zero_add]
      exact List.getD_append line _ d col hcol
    | succ m =>
      have e : (m + 1) * line.length + col = line.length + (m * line.length + col) := by ring
      rw [e, List.getD_append_right line _ d _ (by omega)]
      have e2 : line.length + (m * line.length + col) - line.length = m * line.length + col := by
        omega
      rw [e2]
      exact ih m (by omega)

theorem corridorLine_getD (C c col : Nat) (hc : c < C) (hcol : col < C) :
    (corridorLine C c).getD col ' ' = if col = c then ' ' else 'X' := by
  unfold corridorLine
  rcases Nat.lt_trichotomy col c with h | h | h
  · rw [if_neg (by omega : ¬col = c)]
    rw [List.getD_append _ _ _ _ (by simp; omega)]
    rw [List.getD_eq_getElem _ _ (by simp; omega)]
    simp
  · subst h
    rw [List.getD_append_right _ _ _ _ (by simp)]
    simp
  · rw [if_neg (by omega : ¬col = c)]
    rw [List.getD_append_right _ _ _ _ (by simp; omega)]
    have e : col - (List.replicate c 'X').length = (col - c - 1) + 1 := by simp; omega
    rw [e]
    simp only [List.getD_cons_succ]
    rw [List.getD_eq_getElem _ _ (by simp; omega)]
    simp

theorem corridor_isWall (C R c r col : Nat) (hc : c < C) (hr : r < R) (hcol : col < C) :
    (corridorGrid C R c).isWall r col = (col != c) := by
  unfold corridorGrid Grid.isWall
  simp only
  have hlen := corridorLine_length C c hc
  have e : r * C + col = r * (corridorLine C c).length + col := by rw [hlen]
  rw [e, flatten_replicate_getD _ R r col hr (by omega) ' ']
  rw [corridorLine_getD C c col hc hcol]
  by_cases h : col = c <;> simp [h]

theorem corridor_userExits (C R c : Nat) :
    userExits (corridorGrid C R c) = [] := by
  unfold userExits
  rw [List.filterMap_eq_nil_iff]
  intro i hi
  rw [List.mem_range] at hi
  have hmem : (corridorGrid C R c).data.getD i ' ' ∈ (corridorGrid C R c).data := by
    rw [List.getD_eq_getElem _ _ hi]
    exact List.getElem_mem hi
  have hne : (corridorGrid C R c).data.getD i ' ' ≠ 'O' := by
    generalize hx : (corridorGrid C R c).data.getD i ' ' = x at hmem ⊢
    unfold corridorGrid at hmem
    simp only [List.mem_flatten] at hmem
    obtain ⟨l, hl, hxl⟩ := hmem
    rw [List.eq_of_mem_replicate hl] at hxl
    unfold corridorLine at hxl
    simp only [List.mem_append, List.mem_cons] at hxl
    rcases hxl with hxl | hxl | hxl
    · rw [List.eq_of_mem_replicate hxl]; decide
    · rw [hxl]; decide
    · rw [List.eq_of_mem_replicate hxl]; decide
  have hb : ((corridorGrid C R c).data.getD i ' ' == 'O') = false :=
    beq_eq_false_iff_ne.mpr hne
  simp only [hb, Bool.false_eq_true, if_false]

theorem corridor_firstOpenCol (C R c row : Nat) (hc : c < C) (hr : row < R) :
    ∀ n s, s ≤ c → c < s + n → firstOpenCol (corridorGrid C R c) row (List.range' s n) = some c := by
  intro n
  induction n with
  | zero => intro s hs hlt; omega
  | succ m ih =>
    intro s hs hlt
    rw [List.range'_succ]
    by_cases hsc : s = c
    · unfold firstOpenCol
      rw [corridor_isWall C R c row s hc hr (by omega)]
      rw [hsc]
      simp
    · unfold firstOpenCol
      rw [corridor_isWall C R c row s hc hr (by omega)]
      have hne : (s != c) = true := by simp; omega
      rw [hne]
      simp only [if_true]
      exact ih (s + 1) (by omega) (by omega)

theorem corridor_findEntryPoints (C R c : Nat) (hc0 : 0 < c) (hcC : c + 1 < C) (hR : 2 ≤ R) :
    findEntryPoints (corridorGrid C R c) = [⟨⟨c, 0⟩, .DOWN⟩, ⟨⟨c, R - 1⟩, .UP⟩] := by
  have hrows : (corridorGrid C R c).rows = R := rfl
  have hcols : (corridorGrid C R c).cols = C := rfl
  have htop : topBottomScan (corridorGrid C R c) 0 = [⟨⟨c, 0⟩, .DOWN⟩] := by
    unfold topBottomScan
    rw [hcols, List.range_eq_range']
    rw [corridor_firstOpenCol C R c 0 (by omega) (by omega) C 0 (by omega) (by omega)]
    rfl
  have hbot : topBottomScan (corridorGrid C R c) (R - 1) = [⟨⟨c, R - 1⟩, .UP⟩] := by
    unfold topBottomScan
    rw [hcols, List.range_eq_range']
    rw [corridor_firstOpenCol C R c (R - 1) (by omega) (by omega) C 0 (by omega) (by omega)]
    have hz : ((R - 1 : Nat) == 0) = false := by simp; omega
    rw [hz]
    rfl
  have hint : firstInteriorCandidate (corridorGrid C R c) = none := by
    unfold firstInteriorCandidate
    rw [List.findSome?_eq_none_iff]
    intro r hr
    rw [hrows, List.mem_range'] at hr
    obtain ⟨i, hi, rfl⟩ := hr
    unfold interiorSideCandidate
    rw [corridor_isWall C R c _ 0 (by omega) (by omega) (by omega)]
    rw [hcols, corridor_isWall C R c _ (C - 1) (by omega) (by omega) (by omega)]
    have h0 : ((0 : Nat) != c) = true := by simp; omega
    have h1 : ((C - 1 : Nat) != c) = true := by simp; omega
    rw [h0, h1]
    rfl
  rw [findEntryPoints_split _ (by rw [hrows]; exact hR), htop, hint, hrows, hbot]
  rfl

theorem step_of_not_backtracking (g : Grid) (goals : List Vector2D) (s : EngineState)
    (h : s.backtracking = false) : step g goals s = advanceStep g goals s := by
  unfold step
  rw [h]
  rfl

theorem step_of_backtracking (g : Grid) (goals : List Vector2D) (s : EngineState)
    (h : s.backtracking = true) : step g goals s = backtrackStep s := by
  unfold step
  rw [h]
  rfl

theorem run_succ (g : Grid) (goals : List Vector2D) (s : EngineState) (n : Nat) :
    run g goals s (n + 1) =
      match run g goals s n with
      | .next s1 => step g goals s1
      | r => r := rfl

theorem corridor_step (C R c m : Nat) (hc0 : 0 < c) (hcC : c + 1 < C)
    (hCW : C < W) (hRW : R < W) (hm : m + 1 < R) (st : List NodeInformation) :
    step (corridorGrid C R c) [⟨c, R - 1⟩] ⟨⟨c, m⟩, .DOWN, st, false⟩ =
      .next ⟨⟨c, m + 1⟩, .DOWN,
        markWent (scanNode (corridorGrid C R c) ⟨c, m⟩) .DOWN :: st, false⟩ := by
  have hgl : ((⟨c, R - 1⟩ : Vector2D) == (⟨c, m⟩ : Vector2D)) = false := by
    refine beq_eq_false_iff_ne.mpr ?_
    intro hcontra
    have hrow := congrArg Vector2D.row hcontra
    simp only at hrow
    omega
  have hla : (⟨c, m⟩ : Vector2D).add (directionToVector .DOWN) = ⟨c, m + 1⟩ := by
    unfold directionToVector DIRECTION_DOWN Vector2D.add
    simp only [Vector2D.mk.injEq]
    constructor
    · rw [Nat.add_zero]
      exact Nat.mod_eq_of_lt (by omega)
    · exact Nat.mod_eq_of_lt (by omega)
  have hw : (corridorGrid C R c).wallAt? ⟨c, m + 1⟩ = some false := by
    unfold Grid.wallAt?
    rw [if_pos (⟨(by omega : m + 1 < R), (by omega : c < C)⟩ :
      (⟨c, m + 1⟩ : Vector2D).row < (corridorGrid C R c).rows ∧
        (⟨c, m + 1⟩ : Vector2D).column < (corridorGrid C R c).cols)]
    rw [corridor_isWall C R c (m + 1) c (by omega) (by omega) (by omega)]
    simp
  rw [step_of_not_backtracking _ _ _ rfl]
  simp only [advanceStep, List.any_cons, List.any_nil, Bool.or_false, hgl,
    Bool.false_eq_true, if_false, hla, hw, moveAndPush]

theorem corridor_solved_step (C R c : Nat) (st : List NodeInformation) :
    step (corridorGrid C R c) [⟨c, R - 1⟩] ⟨⟨c, R - 1⟩, .DOWN, st, false⟩ =
      .solved (st.map NodeInformation.position) := by
  rw [step_of_not_backtracking _ _ _ rfl]
  unfold advanceStep
  simp

theorem corridor_run_inv (C R c : Nat) (hc0 : 0 < c) (hcC : c + 1 < C)
    (hCW : C < W) (hRW : R < W) :
    ∀ t, t ≤ R - 1 → ∃ st, run (corridorGrid C R c) [⟨c, R - 1⟩] (corridorInit c) t =
      .next ⟨⟨c, t⟩, .DOWN, st, false⟩ := by
  intro t
  induction t with
  | zero =>
    intro _
    exact ⟨[], rfl⟩
  | succ m ih =>
    intro hm
    obtain ⟨st, hst⟩ := ih (by omega)
    refine ⟨markWent (scanNode (corridorGrid C R c) ⟨c, m⟩) .DOWN :: st, ?_⟩
    rw [run_succ, hst]
    exact corridor_step C R c m hc0 hcC hCW hRW (by omega) st

/-- All of the first `n` states of the corridor run are advancing. -/
def corridorAdvancing (C R c n : Nat) : Bool :=
  (List.range n).all (fun t =>
    StepResult.isAdvancing (run (corridorGrid C R c) [⟨c, R - 1⟩] (corridorInit c) t))

/-- C9 amended: on every straight vertical corridor the engine is solved on
tick `R` (the corridor length): ticks `1` to `R - 1` each move the robot one
cell down the corridor and the goal-check tick `R` reports `Solved`, so the
run takes corridor-length ticks, not corridor-length minus one; the
`Backtracking` state is never entered. -/
theorem c9_amended (C R c : Nat) (hc0 : 0 < c) (hcC : c + 1 < C) (hR : 2 ≤ R)
    (hCW : C < W) (hRW : R < W) :
    setupGrid (corridorGrid C R c) = some (corridorInit c, [⟨c, R - 1⟩])
    ∧ corridorAdvancing C R c R = true
    ∧ StepResult.isSolved (run (corridorGrid C R c) [⟨c, R - 1⟩] (corridorInit c) R) = true := by
  refine ⟨?_, ?_, ?_⟩
  · unfold setupGrid
    rw [corridor_findEntryPoints C R c hc0 hcC hR, corridor_userExits]
    simp [corridorInit]
  · unfold corridorAdvancing
    rw [List.all_eq_true]
    intro t ht
    rw [List.mem_range] at ht
    obtain ⟨st, hst⟩ := corridor_run_inv C R c hc0 hcC hCW hRW t (by omega)
    rw [hst]
    rfl
  · have e : R = (R - 1) + 1 := by omega
    have h2 := congrArg (run (corridorGrid C R c) [⟨c, R - 1⟩] (corridorInit c)) e
    obtain ⟨st, hst⟩ := corridor_run_inv C R c hc0 hcC hCW hRW (R - 1) (by omega)
    rw [h2, run_succ, hst]
    show (step (corridorGrid C R c) [⟨c, R - 1⟩]
      ⟨⟨c, R - 1⟩, .DOWN, st, false⟩).isSolved = true
    rw [corridor_solved_step]
    rfl

/-- C9 amended witness: the length-3 corridor is solved on tick 3 with all
states advancing. -/
theorem c9_amended_witness :
    setupGrid (corridorGrid 3 3 1) = some (corridorInit 1, [⟨1, 2⟩])
    ∧ corridorAdvancing 3 3 1 3 = true
    ∧ StepResult.isSolved (run (corridorGrid 3 3 1) [⟨1, 2⟩] (corridorInit 1) 3) = true :=
  c9_amended 3 3 1 (by decide) (by decide) (by decide) (by decide) (by decide)

/-! ## The stack invariant behind the solution path -/

/-- The cell is inside the grid and open. -/
def cellOpenB (g : Grid) (v : Vector2D) : Bool :=
  decide (v.row < g.rows) && decide (v.column < g.cols) && !g.isWall v.row v.column

/-- A node records an open in-bounds cell. -/
def nodeCellOpen (g : Grid) (n : NodeInformation) : Bool := cellOpenB g n.position

/-- The top of the stack, when present, is equal or adjacent to the robot. -/
def topOKB (g : Grid) (s : EngineState) : Bool :=
  match s.stack with
  | [] => true
  | n :: _ => eqOrUnitStepB n.position s.bot

/-- Grid dimensions fit in `size_t` (trivially true for real mazes). -/
def GridOK (g : Grid) : Prop := g.rows < W ∧ g.cols < W

/-- The reachable-state invariant: the robot stands on an open in-bounds
cell, every stacked node records an open in-bounds cell, consecutive stack
entries are equal or one unit apart, and the top entry is equal or one unit
from the robot. -/
def StateOK (g : Grid) (s : EngineState) : Prop :=
  cellOpenB g s.bot = true
  ∧ s.stack.all (nodeCellOpen g) = true
  ∧ pathChainB (s.stack.map NodeInformation.position) = true
  ∧ topOKB g s = true

theorem scanNode_position (g : Grid) (p : Vector2D) : (scanNode g p).position = p := rfl

theorem eqOrUnitStepB_refl (a : Vector2D) : eqOrUnitStepB a a = true := by
  simp [eqOrUnitStepB]

theorem eqOrUnitStepB_symm (a b : Vector2D) (h : eqOrUnitStepB a b = true) :
    eqOrUnitStepB b a = true := by
  rcases a with ⟨ac, ar⟩
  rcases b with ⟨bc, br⟩
  simp only [eqOrUnitStepB, unitStepB, Bool.or_eq_true, Bool.and_eq_true, beq_iff_eq,
    Vector2D.mk.injEq] at h ⊢
  omega

theorem wallAt?_eq_some (g : Grid) (v : Vector2D) (b : Bool) (h : g.wallAt? v = some b) :
    v.row < g.rows ∧ v.column < g.cols ∧ g.isWall v.row v.column = b := by
  unfold Grid.wallAt? at h
  split_ifs at h with hc
  exact ⟨hc.1, hc.2, Option.some.inj h⟩

theorem cellOpenB_iff (g : Grid) (v : Vector2D) :
    cellOpenB g v = true ↔
      v.row < g.rows ∧ v.column < g.cols ∧ g.isWall v.row v.column = false := by
  simp [cellOpenB, and_assoc]

theorem cellOpenB_mk (g : Grid) (c r : Nat) :
    cellOpenB g ⟨c, r⟩ = true ↔ r < g.rows ∧ c < g.cols ∧ g.isWall r c = false := by
  simp [cellOpenB, and_assoc]

theorem add_mk_DOWN (c r : Nat) (hc : c < W) (hr : r + 1 < W) :
    (⟨c, r⟩ : Vector2D).add (directionToVector .DOWN) = ⟨c, r + 1⟩ := by
  unfold directionToVector DIRECTION_DOWN Vector2D.add
  simp only [Vector2D.mk.injEq]
  exact ⟨by rw [Nat.add_zero]; exact Nat.mod_eq_of_lt (by omega), Nat.mod_eq_of_lt hr⟩

theorem add_mk_RIGHT (c r : Nat) (hc : c + 1 < W) (hr : r < W) :
    (⟨c, r⟩ : Vector2D).add (directionToVector .RIGHT) = ⟨c + 1, r⟩ := by
  unfold directionToVector DIRECTION_RIGHT Vector2D.add
  simp only [Vector2D.mk.injEq]
  exact ⟨Nat.mod_eq_of_lt hc, by rw [Nat.add_zero]; exact Nat.mod_eq_of_lt hr⟩

theorem add_mk_UP (c r : Nat) (hc : c < W) (hr0 : 0 < r) (hr : r < W) :
    (⟨c, r⟩ : Vector2D).add (directionToVector .UP) = ⟨c, r - 1⟩ := by
  unfold directionToVector DIRECTION_UP Vector2D.add
  simp only [Vector2D.mk.injEq]
  constructor
  · rw [Nat.add_zero]; exact Nat.mod_eq_of_lt hc
  · have e : r + (W - 1) = (r - 1) + W := by omega
    rw [e, Nat.add_mod_right]
    exact Nat.mod_eq_of_lt (by omega)

theorem add_mk_LEFT (c r : Nat) (hc0 : 0 < c) (hc : c < W) (hr : r < W) :
    (⟨c, r⟩ : Vector2D).add (directionToVector .LEFT) = ⟨c - 1, r⟩ := by
  unfold directionToVector DIRECTION_LEFT Vector2D.add
  simp only [Vector2D.mk.injEq]
  constructor
  · have e : c + (W - 1) = (c - 1) + W := by omega
    rw [e, Nat.add_mod_right]
    exact Nat.mod_eq_of_lt (by omega)
  · rw [Nat.add_zero]; exact Nat.mod_eq_of_lt hr

theorem add_mk_UP_row_zero (c : Nat) :
    ((⟨c, 0⟩ : Vector2D).add (directionToVector .UP)).row = W - 1 := by
  unfold directionToVector DIRECTION_UP Vector2D.add
  simp only [Nat.zero_add]
  exact Nat.mod_eq_of_lt (by decide)

theorem add_mk_LEFT_col_zero (r : Nat) :
    ((⟨0, r⟩ : Vector2D).add (directionToVector .LEFT)).column = W - 1 := by
  unfold directionToVector DIRECTION_LEFT Vector2D.add
  simp only [Nat.zero_add]
  exact Nat.mod_eq_of_lt (by decide)

theorem pathChainB_cons_cons (a b : Vector2D) (l : List Vector2D) :
    pathChainB (a :: b :: l) = (eqOrUnitStepB a b && pathChainB (b :: l)) := rfl

theorem branch_target_ok (g : Grid) (p : Vector2D) (d : Direction)
    (hg : GridOK g) (hp : cellOpenB g p = true)
    (ho : nodeOpen (scanNode g p) d = true) :
    cellOpenB g (p.add (directionToVector d)) = true
    ∧ eqOrUnitStepB p (p.add (directionToVector d)) = true := by
  obtain ⟨hrW, hcW⟩ := hg
  obtain ⟨pc, pr⟩ := p
  rw [cellOpenB_mk] at hp
  obtain ⟨hr, hc, hw⟩ := hp
  cases d with
  | DOWN =>
    simp only [nodeOpen, scanNode, Bool.and_eq_true, bne_iff_ne, Bool.not_eq_true'] at ho
    obtain ⟨hne, hwd⟩ := ho
    rw [add_mk_DOWN pc pr (by omega) (by omega)]
    refine ⟨by rw [cellOpenB_mk]; exact ⟨by omega, by omega, hwd⟩, ?_⟩
    simp [eqOrUnitStepB, unitStepB, Vector2D.mk.injEq] <;> omega
  | UP =>
    simp only [nodeOpen, scanNode, Bool.and_eq_true, bne_iff_ne, Bool.not_eq_true'] at ho
    obtain ⟨hne, hwd⟩ := ho
    rw [add_mk_UP pc pr (by omega) (by omega) (by omega)]
    refine ⟨by rw [cellOpenB_mk]; exact ⟨by omega, by omega, hwd⟩, ?_⟩
    simp [eqOrUnitStepB, unitStepB, Vector2D.mk.injEq] <;> omega
  | LEFT =>
    simp only [nodeOpen, scanNode, Bool.and_eq_true, bne_iff_ne, Bool.not_eq_true'] at ho
    obtain ⟨hne, hwd⟩ := ho
    rw [add_mk_LEFT pc pr (by omega) (by omega) (by omega)]
    refine ⟨by rw [cellOpenB_mk]; exact ⟨by omega, by omega, hwd⟩, ?_⟩
    simp [eqOrUnitStepB, unitStepB, Vector2D.mk.injEq] <;> omega
  | RIGHT =>
    simp only [nodeOpen, scanNode, Bool.and_eq_true, bne_iff_ne, Bool.not_eq_true'] at ho
    obtain ⟨hne, hwd⟩ := ho
    rw [add_mk_RIGHT pc pr (by omega) (by omega)]
    refine ⟨by rw [cellOpenB_mk]; exact ⟨by omega, by omega, hwd⟩, ?_⟩
    simp [eqOrUnitStepB, unitStepB, Vector2D.mk.injEq] <;> omega

theorem straight_target_ok (g : Grid) (p : Vector2D) (d : Direction)
    (hg : GridOK g) (hp : cellOpenB g p = true)
    (hw : g.wallAt? (p.add (directionToVector d)) = some false) :
    cellOpenB g (p.add (directionToVector d)) = true
    ∧ eqOrUnitStepB p (p.add (directionToVector d)) = true := by
  obtain ⟨hrW, hcW⟩ := hg
  obtain ⟨hin1, hin2, hwall⟩ := wallAt?_eq_some g _ false hw
  refine ⟨by rw [cellOpenB_iff]; exact ⟨hin1, hin2, hwall⟩, ?_⟩
  obtain ⟨pc, pr⟩ := p
  rw [cellOpenB_mk] at hp
  obtain ⟨hr, hc, _⟩ := hp
  cases d with
  | DOWN =>
    rw [add_mk_DOWN pc pr (by omega) (by omega)]
    simp [eqOrUnitStepB, unitStepB, Vector2D.mk.injEq] <;> omega
  | UP =>
    rcases Nat.eq_zero_or_pos pr with h0 | h0
    · exfalso
      subst h0
      rw [add_mk_UP_row_zero pc] at hin1
      omega
    · rw [add_mk_UP pc pr (by omega) h0 (by omega)]
      simp [eqOrUnitStepB, unitStepB, Vector2D.mk.injEq] <;> omega
  | LEFT =>
    rcases Nat.eq_zero_or_pos pc with h0 | h0
    · exfalso
      subst h0
      rw [add_mk_LEFT_col_zero pr] at hin2
      omega
    · rw [add_mk_LEFT pc pr h0 (by omega) (by omega)]
      simp [eqOrUnitStepB, unitStepB, Vector2D.mk.injEq] <;> omega
  | RIGHT =>
    rw [add_mk_RIGHT pc pr (by omega) (by omega)]
    simp [eqOrUnitStepB, unitStepB, Vector2D.mk.injEq] <;> omega

theorem step_preserves (g : Grid) (goals : List Vector2D) (s s1 : EngineState)
    (hg : GridOK g) (hs : StateOK g s) (h : step g goals s = .next s1) : StateOK g s1 := by
  obtain ⟨hbot, hall, hchain, htop⟩ := hs
  cases hb : s.backtracking with
  | true =>
    rw [step_of_backtracking _ _ _ hb] at h
    unfold backtrackStep at h
    split at h
    · exact absurd h (by simp)
    · exact absurd h (by simp)
    · rename_i cur nxt rest heqs
      rw [heqs] at hall hchain
      simp only [topOKB, heqs] at htop
      simp only [List.all_cons, Bool.and_eq_true] at hall
      simp only [List.map_cons, pathChainB_cons_cons, Bool.and_eq_true] at hchain
      split at h
      · rename_i d1 cur1 heq
        simp only [StepResult.next.injEq] at h
        subst h
        have hpos := backtrackChoice_position cur nxt d1 cur1 heq
        refine ⟨hall.1, ?_, ?_, ?_⟩
        · simp only [List.all_cons, Bool.and_eq_true]
          refine ⟨?_, hall.2⟩
          unfold nodeCellOpen
          rw [hpos]
          exact hall.1
        · simp only [List.map_cons, pathChainB_cons_cons, Bool.and_eq_true, hpos]
          exact hchain
        · simp only [topOKB, hpos]
          exact eqOrUnitStepB_refl cur.position
      · simp only [StepResult.next.injEq] at h
        subst h
        refine ⟨hall.1, ?_, ?_, ?_⟩
        · simp only [List.all_cons, Bool.and_eq_true]
          exact hall.2
        · simp only [List.map_cons, pathChainB_cons_cons, Bool.and_eq_true]
          exact hchain.2
        · simp only [topOKB]
          exact eqOrUnitStepB_symm _ _ hchain.1
  | false =>
    rw [step_of_not_backtracking _ _ _ hb] at h
    simp only [advanceStep] at h
    split at h
    · exact absurd h (by simp)
    · split at h
      · exact absurd h (by simp)
      · split at h
        · rename_i d2 n1 heq
          simp only [moveAndPush, StepResult.next.injEq] at h
          subst h
          have ho := branchChoice_nodeOpen s.dir d2 (scanNode g s.bot) n1 heq
          have hpos2 := branchChoice_position s.dir d2 (scanNode g s.bot) n1 heq
          obtain ⟨htgt, hadj⟩ := branch_target_ok g s.bot d2 hg hbot ho
          refine ⟨htgt, ?_, ?_, ?_⟩
          · simp only [List.all_cons, Bool.and_eq_true]
            refine ⟨?_, hall⟩
            unfold nodeCellOpen
            rw [markWent_position, hpos2, scanNode_position]
            exact hbot
          · simp only [List.map_cons, markWent_position, hpos2, scanNode_position]
            cases hstack : s.stack with
            | nil => simp [pathChainB]
            | cons top rest2 =>
              simp only [topOKB, hstack] at htop
              rw [hstack] at hchain
              simp only [List.map_cons, pathChainB_cons_cons, Bool.and_eq_true]
              exact ⟨eqOrUnitStepB_symm _ _ htop, hchain⟩
          · simp only [topOKB, markWent_position, hpos2, scanNode_position]
            exact hadj
        · split at h
          · exact absurd h (by simp)
          · simp only [StepResult.next.injEq] at h
            subst h
            exact ⟨hbot, hall, hchain, htop⟩
      · rename_i hw
        simp only [moveAndPush, StepResult.next.injEq] at h
        subst h
        obtain ⟨htgt, hadj⟩ := straight_target_ok g s.bot s.dir hg hbot hw
        refine ⟨htgt, ?_, ?_, ?_⟩
        · simp only [List.all_cons, Bool.and_eq_true]
          refine ⟨?_, hall⟩
          unfold nodeCellOpen
          rw [markWent_position, scanNode_position]
          exact hbot
        · simp only [List.map_cons, markWent_position, scanNode_position]
          cases hstack : s.stack with
          | nil => simp [pathChainB]
          | cons top rest2 =>
            simp only [topOKB, hstack] at htop
            rw [hstack] at hchain
            simp only [List.map_cons, pathChainB_cons_cons, Bool.and_eq_true]
            exact ⟨eqOrUnitStepB_symm _ _ htop, hchain⟩
        · simp only [topOKB, markWent_position, scanNode_position]
          exact hadj

theorem step_solved (g : Grid) (goals : List Vector2D) (s : EngineState) (p : List Vector2D)
    (h : step g goals s = .solved p) : p = s.stack.map NodeInformation.position := by
  cases hb : s.backtracking with
  | true =>
    rw [step_of_backtracking _ _ _ hb] at h
    unfold backtrackStep at h
    split at h
    · exact absurd h (by simp)
    · exact absurd h (by simp)
    · split at h
      · exact absurd h (by simp)
      · exact absurd h (by simp)
  | false =>
    rw [step_of_not_backtracking _ _ _ hb] at h
    simp only [advanceStep] at h
    split at h
    · simp only [StepResult.solved.injEq] at h
      exact h.symm
    · split at h
      · exact absurd h (by simp)
      · split at h
        · simp only [moveAndPush] at h
          exact absurd h (by simp)
        · split at h
          · exact absurd h (by simp)
          · exact absurd h (by simp)
      · simp only [moveAndPush] at h
        exact absurd h (by simp)

theorem run_next_ok (g : Grid) (goals : List Vector2D) (s : EngineState)
    (hg : GridOK g) (hs : StateOK g s) :
    ∀ n s1, run g goals s n = .next s1 → StateOK g s1 := by
  intro n
  induction n with
  | zero =>
    intro s1 h
    simp only [run, StepResult.next.injEq] at h
    rw [← h]
    exact hs
  | succ m ih =>
    intro s1 h
    rw [run_succ] at h
    cases hr : run g goals s m with
    | next s2 =>
      rw [hr] at h
      exact step_preserves g goals s2 s1 hg (ih s2 hr) h
    | solved p2 => rw [hr] at h; exact absurd h (by simp)
    | stuck => rw [hr] at h; exact absurd h (by simp)
    | oobLookahead v => rw [hr] at h; exact absurd h (by simp)
    | emptyStackTop => rw [hr] at h; exact absurd h (by simp)

/-- C6 amended: every cell of the path emitted on `Solved` is an open
in-bounds cell of the grid, and consecutive path cells are either equal (a
node re-pushed by backtracking followed by the fresh node of the next
advance) or differ by exactly one unit in exactly one axis. -/
theorem c6_amended (g : Grid) (goals : List Vector2D) (s : EngineState) (n : Nat)
    (p : List Vector2D) (hg : GridOK g) (hs : StateOK g s)
    (h : run g goals s n = .solved p) :
    p.all (cellOpenB g) = true ∧ pathChainB p = true := by
  induction n with
  | zero => simp only [run] at h; exact absurd h (by simp)
  | succ m ih =>
    rw [run_succ] at h
    cases hr : run g goals s m with
    | next s2 =>
      rw [hr] at h
      obtain ⟨hbot2, hall2, hchain2, htop2⟩ := run_next_ok g goals s hg hs m s2 hr
      have hp := step_solved g goals s2 p h
      subst hp
      constructor
      · rw [List.all_eq_true]
        intro v hv
        rw [List.mem_map] at hv
        obtain ⟨nd, hnd, rfl⟩ := hv
        exact List.all_eq_true.mp hall2 nd hnd
      · exact hchain2
    | solved p2 =>
      rw [hr] at h
      simp only [StepResult.solved.injEq] at h
      subst h
      exact ih hr
    | stuck => rw [hr] at h; exact absurd h (by simp)
    | oobLookahead v => rw [hr] at h; exact absurd h (by simp)
    | emptyStackTop => rw [hr] at h; exact absurd h (by simp)

/-- C6 amended witness: the `dupLines` run, whose path contains an
equal consecutive pair. -/
theorem c6_amended_witness :
    dupPath.all (cellOpenB (mkGrid dupLines)) = true ∧ pathChainB dupPath = true :=
  c6_amended (mkGrid dupLines) [⟨4, 1⟩] ⟨⟨2, 0⟩, .DOWN, [], false⟩ 7 dupPath
    (by constructor <;> decide) (by refine ⟨?_, ?_, ?_, ?_⟩ <;> decide) (by rfl)

/-- C4 amended witness: instantiated on the counterexample grid. -/
theorem c4_amended_witness :
    setup c4Lines = none ↔
      (findEntryPoints (mkGrid c4Lines) = [] ∨
        ((findEntryPoints (mkGrid c4Lines)).length = 1 ∧ userExits (mkGrid c4Lines) = [])) :=
  c4_amended c4Lines

/-- C8 amended witness: instantiated at the nodes popped on the `c8Lines`
backtrack. -/
theorem c8_amended_witness :
    (branchChoice .UP c8Cur).map Prod.fst =
      (perpendicularOrder .UP).find? (fun e => nodeOpen c8Cur e && !nodeWent c8Cur e)
    ∧ (backtrackChoice c8Cur c8Nxt).map Prod.fst =
      backtrackOrder.find? (fun e =>
        nodeOpen c8Cur e && !nodeWent c8Cur e &&
          !(c8Nxt.position == c8Cur.position.add (directionToVector e))) :=
  c8_amended .UP c8Cur c8Cur c8Nxt
